import Mathlib

/-!
Shallow embedding of the GeoBoundaries map application core
(`src/unnamed/part_000` and `src/config.js`).

The embedding models the hierarchical boundary-layer orchestrator:
the mutable session state (`AppState`, mirroring the `state` object at
lines 2-10), the renderer registry (`MapState`, mirroring the MapLibre
sources/layers/camera the code manipulates), and the core operations
`selectCountry`, `toggleAdminLevel`, `loadAndRenderLayer`, `removeLayer`,
`handleFeatureClick`, `showPopup` and `selectSearchResult`.

Two views of the async code are given:
* a sequential run-to-completion view (every `await` resolves
  immediately), used for claims about the final state of a single user
  action; and
* an interleaving view (`SchedState`, `loadStart` / `loadResume`) that
  makes the one real suspension point — the `await fetch` inside
  `loadAndRenderLayer` — explicit, used for claims about racing
  activations and stale completions.

The network is a deterministic oracle `fetchFn : String → Option GeoJSON`
(`none` models a failed `fetch` / non-ok response / JSON parse error);
boundary datasets themselves are opaque (`GeoJSON := Nat`).
-/

namespace GeoBoundaries

/-- Opaque stand-in for a fetched GeoJSON boundary dataset; only identity
matters to the orchestrator. -/
abbrev GeoJSON := Nat

/-- Camera position, as used by `map.flyTo({center, zoom})`.  Coordinates
are abstracted to integer pairs (their values are never computed with). -/
structure Camera where
  center : Int × Int
  zoom : Int
  deriving DecidableEq

/-- One level entry of `terminology.json`: `{ term, file }` (spec section 6). -/
structure LevelInfo where
  term : String
  file : String
  deriving DecidableEq

/-- One country entry of `terminology.json`:
`{ defaultView, levels: { <LEVEL_CODE>: { term, file } } }`.  The `levels`
object is kept as an association list in JSON key (insertion) order, which
is the order `Object.keys` iterates in. -/
structure CountryTerm where
  defaultView : Camera
  levels : List (String × LevelInfo)
  deriving DecidableEq

/-- A content record from `content.json`:
`{ description?, images?, videos? }`.  A missing optional field behaves in
the source exactly like an empty list / empty string (both are falsy under
the guards at lines 313 and 320 and line 331), so the fields are kept
total here with empty defaults. -/
structure ContentRecord where
  videos : List String
  images : List String
  description : String
  deriving DecidableEq

/-- The feature properties the source reads from a rendered boundary
feature: `shapeName`, `shapeType` (e.g. "ADM1") and `shapeGroup`
(owning country code), lines 294-297. -/
structure Feature where
  shapeName : String
  shapeType : String
  shapeGroup : String
  deriving DecidableEq

/-- One record of `search-index.json`:
`{ name, hierarchy, iso, level, center }` (the hierarchy is display-only
plumbing and is dropped). -/
structure SearchItem where
  name : String
  iso : String
  level : String
  center : Int × Int
  deriving DecidableEq

/-- The renderer-side registry the code mutates through MapLibre:
named data sources (`map.addSource` / `map.removeSource`), named draw
layers in draw order, bottom first (`map.addLayer` appends; the source
passes no `beforeId`), the fill layers that have click/hover handlers
registered via `map.on` (line 242-246; the source never calls `map.off`),
and the camera. -/
structure MapState where
  sources : List (String × GeoJSON)
  layers : List String
  clickLayers : List String
  camera : Camera
  deriving DecidableEq

/-- The `state` object (lines 2-10) plus the renderer registry.
`terminology` and `content` are the static catalogs loaded at `init`;
`activeLevels` is a JS `Set` kept as its insertion-ordered element list;
`geoJsonCache` is the `"ISO_LEVEL"`-keyed cache object. -/
structure AppState where
  terminology : List (String × CountryTerm)
  content : List (String × List (String × List (String × ContentRecord)))
  selectedCountryISO : Option String
  activeLevels : List String
  geoJsonCache : List (String × GeoJSON)
  deriving DecidableEq

/-- Full session state: app state plus renderer registry. -/
structure Sess where
  app : AppState
  map : MapState
  deriving DecidableEq

/-- JS object property assignment `obj[k] = v` on a string-keyed object:
overwrite in place if the key exists, else append (JS objects preserve
insertion order). -/
def assocSet {β : Type} (k : String) (v : β) : List (String × β) → List (String × β)
  | [] => [(k, v)]
  | (k', v') :: rest => if k = k' then (k, v) :: rest else (k', v') :: assocSet k v rest

/-- JS `Set.add`: no-op when the element is present, else insert at the
end of the iteration order. -/
def setAdd (x : String) (l : List String) : List String :=
  if x ∈ l then l else l ++ [x]

/-- JS `Set.delete`. -/
def setDelete (x : String) (l : List String) : List String :=
  l.filter (fun y => y ≠ x)

/-- `config.dataBaseUrl` from `src/config.js`. -/
def dataBaseUrl : String :=
  "https://pub-6106e7f2cf224a18b071c86dd9511e90.r2.dev/geoboundaries_data"

/-- `config.initialCenter` / `config.initialZoom` from `src/config.js`. -/
def initialCamera : Camera := { center := (0, 20), zoom := 2 }

/-- The template literal `` `${iso}_${levelCode}` `` (line 170). -/
def cacheKeyOf (iso levelCode : String) : String := iso ++ "_" ++ levelCode

/-- The template literal `` `source-${cacheKey}` `` (line 171). -/
def sourceIdOf (iso levelCode : String) : String :=
  "source-" ++ cacheKeyOf iso levelCode

/-- The template literal `` `layer-fill-${cacheKey}` `` (line 172). -/
def fillIdOf (iso levelCode : String) : String :=
  "layer-fill-" ++ cacheKeyOf iso levelCode

/-- The template literal `` `layer-line-${cacheKey}` `` (line 173). -/
def lineIdOf (iso levelCode : String) : String :=
  "layer-line-" ++ cacheKeyOf iso levelCode

/-- Lines 200-246 of `loadAndRenderLayer`: read the dataset back out of the
cache, `map.addSource`, append the fill layer and the line layer
(`map.addLayer` with no `beforeId` appends at the top of the draw order),
and register the click/hover handlers on the fill layer.  The `getD 0`
default is unreachable: both call sites run it only when the cache holds
the key. -/
def addLayersFor (s : Sess) (iso levelCode : String) : Sess :=
  let geojson := (s.app.geoJsonCache.lookup (cacheKeyOf iso levelCode)).getD 0
  { s with map := { s.map with
      sources := assocSet (sourceIdOf iso levelCode) geojson s.map.sources,
      layers := s.map.layers ++ [fillIdOf iso levelCode, lineIdOf iso levelCode],
      clickLayers := s.map.clickLayers ++ [fillIdOf iso levelCode] } }

/-- `loadAndRenderLayer` (lines 169-247), sequential run-to-completion
view.  `none` models the JS `TypeError` thrown at line 186 when the
country or the level has no terminology entry while the cache is cold;
`some s` with `s` unchanged is the `catch` path of a failed fetch
(lines 194-197): log and return.  The early-exit branch at lines 176-181
only re-asserts visibility (layers are never hidden by this code, so it
is the identity on the model). -/
def loadAndRenderLayer (fetchFn : String → Option GeoJSON) (s : Sess)
    (iso levelCode : String) : Option Sess :=
  if (s.map.sources.lookup (sourceIdOf iso levelCode)).isSome then
    some s
  else if (s.app.geoJsonCache.lookup (cacheKeyOf iso levelCode)).isSome then
    some (addLayersFor s iso levelCode)
  else
    match s.app.terminology.lookup iso with
    | none => none
    | some countryData =>
      match countryData.levels.lookup levelCode with
      | none => none
      | some levelInfo =>
        match fetchFn (dataBaseUrl ++ "/" ++ levelInfo.file) with
        | none => some s
        | some geo =>
          some (addLayersFor
            { s with app := { s.app with
                geoJsonCache := assocSet (cacheKeyOf iso levelCode) geo s.app.geoJsonCache } }
            iso levelCode)

/-- `removeLayer` (lines 249-258): drop both draw layers and the data
source.  The click/hover registrations are left in place, exactly as in
the source (no `map.off`). -/
def removeLayer (s : Sess) (iso levelCode : String) : Sess :=
  { s with map := { s.map with
      layers := s.map.layers.filter
        (fun l => l ≠ fillIdOf iso levelCode ∧ l ≠ lineIdOf iso levelCode),
      sources := s.map.sources.filter (fun p => p.1 ≠ sourceIdOf iso levelCode) } }

/-- `toggleAdminLevel` (lines 155-167), sequential view.  Note the order
in the enable branch: the level is added to `activeLevels` *before*
`loadAndRenderLayer` runs (and is never removed when the fetch fails).
The button-class manipulation is DOM plumbing and is dropped. -/
def toggleAdminLevel (fetchFn : String → Option GeoJSON) (s : Sess)
    (iso levelCode : String) (shouldEnable : Bool) : Option Sess :=
  if shouldEnable then
    loadAndRenderLayer fetchFn
      { s with app := { s.app with activeLevels := setAdd levelCode s.app.activeLevels } }
      iso levelCode
  else
    some (removeLayer
      { s with app := { s.app with activeLevels := setDelete levelCode s.app.activeLevels } }
      iso levelCode)

/-- `selectCountry` (lines 109-134), sequential view.  The selected-country
field is set and the active-level set cleared *before* the terminology
check; on a missing entry the function logs and returns with those two
mutations already applied.  `renderAdminButtons` is DOM plumbing and is
dropped. -/
def selectCountry (fetchFn : String → Option GeoJSON) (s : Sess) (iso : String) :
    Option Sess :=
  let s1 : Sess :=
    { s with app := { s.app with selectedCountryISO := some iso, activeLevels := [] } }
  match s1.app.terminology.lookup iso with
  | none => some s1
  | some countryData =>
    let s2 : Sess := { s1 with map := { s1.map with camera := countryData.defaultView } }
    match countryData.levels with
    | [] => some s2
    | (l0, _) :: _ => toggleAdminLevel fetchFn s2 iso l0 true

/-- `selectSearchResult` (lines 381-411), sequential view: select the
record's country when it differs from the current one, fly the camera to
the record's center at zoom 7, then force-enable the record's level. -/
def selectSearchResult (fetchFn : String → Option GeoJSON) (s : Sess)
    (item : SearchItem) : Option Sess :=
  let step1 : Option Sess :=
    if s.app.selectedCountryISO ≠ some item.iso then selectCountry fetchFn s item.iso
    else some s
  match step1 with
  | none => none
  | some s1 =>
    let s2 : Sess :=
      { s1 with map := { s1.map with camera := { center := item.center, zoom := 7 } } }
    toggleAdminLevel fetchFn s2 item.iso item.level true

/-! ## Interleaving view

The only true suspension point in the core is the `await fetch` (together
with the immediately following `await res.json()`) inside
`loadAndRenderLayer`; every other statement runs synchronously.  The
interleaving view splits `loadAndRenderLayer` at that point: `loadStart`
is the code before the `await`, `loadResume` the code after it.  Pending
fetches sit in a queue; a scheduler event completes one of them with its
result.  `fetchCount` counts how many network retrievals have been
issued. -/

/-- One suspended `loadAndRenderLayer` activation: the `(iso, levelCode)`
target it closed over, and the URL its fetch was issued against. -/
structure PendingFetch where
  iso : String
  levelCode : String
  path : String
  deriving DecidableEq

/-- Scheduler state: session state, the queue of in-flight fetches, and
the number of network retrievals issued so far. -/
structure SchedState where
  sess : Sess
  pending : List PendingFetch
  fetchCount : Nat
  deriving DecidableEq

/-- The synchronous part of `loadAndRenderLayer` (lines 169-191): the
source-exists early exit, the cache check, and — on a cold cache — the
terminology lookups and the issuing of the fetch, at which point the
function suspends.  On a cache hit no `await` executes and the render
part (lines 200-246) runs synchronously.  `none` is the JS `TypeError`
for a missing terminology entry. -/
def loadStart (st : SchedState) (iso levelCode : String) : Option SchedState :=
  if (st.sess.map.sources.lookup (sourceIdOf iso levelCode)).isSome then
    some st
  else if (st.sess.app.geoJsonCache.lookup (cacheKeyOf iso levelCode)).isSome then
    some { st with sess := addLayersFor st.sess iso levelCode }
  else
    match st.sess.app.terminology.lookup iso with
    | none => none
    | some countryData =>
      match countryData.levels.lookup levelCode with
      | none => none
      | some levelInfo =>
        some { st with
          pending := st.pending ++
            [{ iso := iso, levelCode := levelCode,
               path := dataBaseUrl ++ "/" ++ levelInfo.file }],
          fetchCount := st.fetchCount + 1 }

/-- The continuation of `loadAndRenderLayer` after its fetch resolves
(lines 192-246), applied to the `i`-th pending fetch.  A failed fetch
(`result = none`) is the `catch` path: log and return.  On success the
cache is written and the render part runs — except that `map.addSource`
throws when a source with that id already exists (MapLibre semantics),
which aborts the continuation after the cache write; that is exactly what
happens when a racing activation for the same key completed first. -/
def loadResume (st : SchedState) (i : Nat) (result : Option GeoJSON) : SchedState :=
  match st.pending.get? i with
  | none => st
  | some pf =>
    let st1 : SchedState := { st with pending := st.pending.eraseIdx i }
    match result with
    | none => st1
    | some geo =>
      let s2 : Sess := { st1.sess with app := { st1.sess.app with
        geoJsonCache := assocSet (cacheKeyOf pf.iso pf.levelCode) geo
          st1.sess.app.geoJsonCache } }
      if (s2.map.sources.lookup (sourceIdOf pf.iso pf.levelCode)).isSome then
        { st1 with sess := s2 }
      else
        { st1 with sess := addLayersFor s2 pf.iso pf.levelCode }

/-- The synchronous part of `toggleAdminLevel` (lines 155-167) in the
interleaving view. -/
def toggleStart (st : SchedState) (iso levelCode : String) (shouldEnable : Bool) :
    Option SchedState :=
  if shouldEnable then
    loadStart
      { st with sess := { st.sess with app := { st.sess.app with
          activeLevels := setAdd levelCode st.sess.app.activeLevels } } }
      iso levelCode
  else
    some { st with sess := (removeLayer
      { st.sess with app := { st.sess.app with
          activeLevels := setDelete levelCode st.sess.app.activeLevels } }
      iso levelCode) }

/-- The synchronous part of `selectCountry` (lines 109-134) in the
interleaving view: everything up to and including the synchronous part of
the `toggleAdminLevel(iso, levels[0], true)` call (which is not
awaited). -/
def selectCountryStart (st : SchedState) (iso : String) : Option SchedState :=
  let st1 : SchedState := { st with sess := { st.sess with app := { st.sess.app with
      selectedCountryISO := some iso, activeLevels := [] } } }
  match st1.sess.app.terminology.lookup iso with
  | none => some st1
  | some countryData =>
    let st2 : SchedState := { st1 with sess := { st1.sess with map := { st1.sess.map with
        camera := countryData.defaultView } } }
    match countryData.levels with
    | [] => some st2
    | (l0, _) :: _ => toggleStart st2 iso l0 true

/-! ## Feature resolution and popup content -/

/-- JS `parseInt` restricted to what the source feeds it: the leading
run of decimal digits, `none` when there is none (`NaN`). -/
def parseIntChars (cs : List Char) : Option Nat :=
  let ds := cs.takeWhile (fun c => c.isDigit)
  if ds.isEmpty then none
  else some (ds.foldl (fun n c => n * 10 + (c.toNat - 48)) 0)

/-- JS `String.prototype.replace('ADM', '')` with a string pattern:
remove the first occurrence of `"ADM"` only. -/
def dropAdmOnce : List Char → List Char
  | 'A' :: 'D' :: 'M' :: rest => rest
  | c :: rest => c :: dropAdmOnce rest
  | [] => []

/-- `parseInt(shapeType.replace('ADM', ''))` (lines 284-285), the level
rank the resolver sorts by.  The `getD 0` default stands for `NaN` and is
irrelevant for the well-formed `"ADM<n>"` codes the data carries. -/
def admRank (code : String) : Nat :=
  (parseIntChars (dropAdmOnce code.data)).getD 0

/-- Rank of a feature, via its `shapeType` property. -/
def levelNum (f : Feature) : Nat := admRank f.shapeType

/-- One step of the JS stable sort with comparator
`(a, b) => levelB - levelA` (lines 283-287): insert `x` before the first
already-placed feature of strictly smaller rank, after all features of
greater or equal rank — which is exactly where a stable descending sort
puts an element arriving later in the input. -/
def insertByLevelDesc (x : Feature) : List Feature → List Feature
  | [] => [x]
  | y :: ys => if levelNum y < levelNum x then x :: y :: ys else y :: insertByLevelDesc x ys

/-- `features.sort((a, b) => levelB - levelA)`: stable sort, descending
by rank (ECMAScript sorts are stable). -/
def sortByLevelDesc (features : List Feature) : List Feature :=
  features.foldl (fun acc x => insertByLevelDesc x acc) []

/-- `handleFeatureClick` (lines 262-291), modelled on the feature list the
renderer returns from `queryRenderedFeatures` across the active fill
layers: return early on no hit, else sort descending by rank and take
`features[0]` (the feature handed to `showPopup`). -/
def handleFeatureClick (features : List Feature) : Option Feature :=
  if features.length = 0 then none
  else (sortByLevelDesc features).head?

/-- The popup payload `showPopup` assembles: title, level term, the media
actually embedded in the HTML, and the description paragraph if any. -/
structure PopupPayload where
  title : String
  subtitle : String
  videoEmbeds : List String
  imageEmbeds : List String
  descriptionShown : Option String
  deriving DecidableEq

/-- The three-level lookup `state.content[iso][shapeType][shapeName]`
guarded at line 305. -/
def contentFind (content : List (String × List (String × List (String × ContentRecord))))
    (iso shapeType shapeName : String) : Option ContentRecord :=
  (content.lookup iso).bind fun byLevel =>
    (byLevel.lookup shapeType).bind fun byName => byName.lookup shapeName

/-- `showPopup` (lines 293-339).  The level term is
`termData?.levels[shapeType]?.term || shapeType`: the raw level code when
the catalog or the level entry is missing, or when the stored term is the
empty string (falsy).  A missing content record becomes the synthesized
empty record of line 304.  Only `videos[0]` and `images[0]` are embedded;
the description paragraph is emitted only when non-empty (line 331). -/
def showPopup (s : AppState) (f : Feature) : PopupPayload :=
  let levelTerm :=
    match (s.terminology.lookup f.shapeGroup).bind
        (fun td => td.levels.lookup f.shapeType) with
    | some li => if li.term = "" then f.shapeType else li.term
    | none => f.shapeType
  let content :=
    match contentFind s.content f.shapeGroup f.shapeType f.shapeName with
    | some c => c
    | none => { videos := [], images := [], description := "" }
  { title := f.shapeName
    subtitle := levelTerm
    videoEmbeds := match content.videos with | [] => [] | v :: _ => [v]
    imageEmbeds := match content.images with | [] => [] | i :: _ => [i]
    descriptionShown :=
      if content.description = "" then none else some content.description }

/-! ## Concrete fixtures

Small terminology/content catalogs in the shape of the real data files,
used by the counterexample and witness theorems. -/

/-- France catalog entry: two levels in rank order. -/
def fraTerm : CountryTerm :=
  { defaultView := { center := (2, 46), zoom := 5 },
    levels := [("ADM0", { term := "Country", file := "Europe/FRA_France/FRA_ADM0.geojson" }),
               ("ADM1", { term := "Region", file := "Europe/FRA_France/FRA_ADM1.geojson" })] }

/-- United States catalog entry: country and county levels. -/
def usaTerm : CountryTerm :=
  { defaultView := { center := (-98, 39), zoom := 4 },
    levels := [("ADM0", { term := "Country", file := "NA/USA/USA_ADM0.geojson" }),
               ("ADM2", { term := "County", file := "NA/USA/USA_ADM2.geojson" })] }

/-- A fresh session right after `init`: catalogs loaded, nothing selected,
no layers, camera at the configured initial view. -/
def freshSess : Sess :=
  { app := { terminology := [("FRA", fraTerm), ("USA", usaTerm)],
             content := [],
             selectedCountryISO := none,
             activeLevels := [],
             geoJsonCache := [] },
    map := { sources := [], layers := [], clickLayers := [], camera := initialCamera } }

/-- A network oracle on which every fetch succeeds. -/
def okFetch : String → Option GeoJSON := fun _ => some 7

/-- A network oracle on which every fetch fails. -/
def failFetch : String → Option GeoJSON := fun _ => none

/-- A session with France selected and its country outline active, as
`selectCountry "FRA"` leaves it when every fetch succeeds. -/
def fraSess : Sess :=
  { app := { freshSess.app with
      selectedCountryISO := some "FRA", activeLevels := ["ADM0"],
      geoJsonCache := [("FRA_ADM0", 7)] },
    map := { sources := [("source-FRA_ADM0", 7)],
             layers := ["layer-fill-FRA_ADM0", "layer-line-FRA_ADM0"],
             clickLayers := ["layer-fill-FRA_ADM0"],
             camera := fraTerm.defaultView } }

/-! ## Helper lemmas -/

/-- Writing a key with `assocSet` makes it the value `lookup` finds. -/
theorem assocSet_lookup {β : Type} (k : String) (v : β) (l : List (String × β)) :
    (assocSet k v l).lookup k = some v := by
  induction l with
  | nil => simp [assocSet, List.lookup]
  | cons p rest ih =>
    obtain ⟨k', v'⟩ := p
    by_cases h : k = k'
    · subst h
      simp [assocSet, List.lookup]
    · have hb : (k == k') = false := beq_eq_false_iff_ne.mpr h
      simp [assocSet, h, List.lookup, hb, ih]

/-- When the country and the level are present in the terminology
catalog, `loadAndRenderLayer` cannot throw, and it never changes the
active-level set, the selected country, the camera, or the catalogs —
whatever the fetch does. -/
theorem load_keeps (fetchFn : String → Option GeoJSON) (s : Sess) (iso lvl : String)
    (cd : CountryTerm) (li : LevelInfo)
    (h1 : s.app.terminology.lookup iso = some cd)
    (h2 : cd.levels.lookup lvl = some li) :
    ∃ s', loadAndRenderLayer fetchFn s iso lvl = some s' ∧
      s'.app.activeLevels = s.app.activeLevels ∧
      s'.app.selectedCountryISO = s.app.selectedCountryISO ∧
      s'.map.camera = s.map.camera ∧
      s'.app.terminology = s.app.terminology := by
  unfold loadAndRenderLayer
  cases hsrc : (s.map.sources.lookup (sourceIdOf iso lvl)).isSome with
  | true => exact ⟨s, by simp [hsrc], rfl, rfl, rfl, rfl⟩
  | false =>
    cases hc : (s.app.geoJsonCache.lookup (cacheKeyOf iso lvl)).isSome with
    | true => exact ⟨addLayersFor s iso lvl, by simp [hsrc, hc], rfl, rfl, rfl, rfl⟩
    | false =>
      cases hf : fetchFn (dataBaseUrl ++ "/" ++ li.file) with
      | none => exact ⟨s, by simp [hsrc, hc, h1, h2, hf], rfl, rfl, rfl, rfl⟩
      | some geo =>
        exact ⟨addLayersFor { s with app := { s.app with
            geoJsonCache := assocSet (cacheKeyOf iso lvl) geo s.app.geoJsonCache } } iso lvl,
          by simp [hsrc, hc, h1, h2, hf], rfl, rfl, rfl, rfl⟩

/-- When the country has a terminology entry whose level list starts with
`l0`, `selectCountry` succeeds and leaves exactly `[l0]` active, the
country selected, and the camera at the country's default view, for any
fetch outcome. -/
theorem selectCountry_spec (fetchFn : String → Option GeoJSON) (s : Sess) (iso : String)
    (cd : CountryTerm) (l0 : String) (li0 : LevelInfo) (rest : List (String × LevelInfo))
    (h1 : s.app.terminology.lookup iso = some cd)
    (h2 : cd.levels = (l0, li0) :: rest) :
    ∃ s', selectCountry fetchFn s iso = some s' ∧
      s'.app.activeLevels = [l0] ∧
      s'.app.selectedCountryISO = some iso ∧
      s'.map.camera = cd.defaultView ∧
      s'.app.terminology = s.app.terminology := by
  have hl0 : cd.levels.lookup l0 = some li0 := by
    rw [h2]
    simp [List.lookup]
  obtain ⟨s', hrun, hA, hSel, hCam, hTerm⟩ :=
    load_keeps fetchFn
      { s with
        app := { s.app with selectedCountryISO := some iso, activeLevels := [l0] },
        map := { s.map with camera := cd.defaultView } }
      iso l0 cd li0 h1 hl0
  refine ⟨s', ?_, hA, hSel, hCam, hTerm⟩
  unfold selectCountry toggleAdminLevel
  simp only [h1, h2]
  simpa [setAdd] using hrun

/-! ## C7 -/

/-- C7: for a country with a terminology entry (whose level list is
non-empty and ordered by rank, as the catalog lists levels), `selectCountry`
clears the previous country's levels and ends with exactly one active
level — the first, lowest-rank one — with the camera reset to the
country's default view. -/
theorem selectCountry_single_active_level
    (fetchFn : String → Option GeoJSON) (s : Sess) (iso : String)
    (cd : CountryTerm) (l0 : String) (li0 : LevelInfo) (rest : List (String × LevelInfo))
    (h1 : s.app.terminology.lookup iso = some cd)
    (h2 : cd.levels = (l0, li0) :: rest)
    (hord : cd.levels.Pairwise (fun a b => admRank a.1 ≤ admRank b.1)) :
    ∃ s', selectCountry fetchFn s iso = some s' ∧
      s'.app.activeLevels = [l0] ∧
      s'.app.selectedCountryISO = some iso ∧
      s'.map.camera = cd.defaultView ∧
      ∀ p ∈ cd.levels, admRank l0 ≤ admRank p.1 := by
  obtain ⟨s', hrun, hA, hSel, hCam, _⟩ :=
    selectCountry_spec fetchFn s iso cd l0 li0 rest h1 h2
  refine ⟨s', hrun, hA, hSel, hCam, ?_⟩
  intro p hp
  rw [h2] at hord hp
  rcases List.mem_cons.mp hp with rfl | hp'
  · exact le_refl _
  · exact (List.pairwise_cons.mp hord).1 p hp'

/-- C7 witness: selecting France on a fresh session activates exactly
`ADM0` and moves the camera to France's default view. -/
theorem selectCountry_single_active_level_wit :
    ∃ s', selectCountry okFetch freshSess "FRA" = some s' ∧
      s'.app.activeLevels = ["ADM0"] ∧
      s'.app.selectedCountryISO = some "FRA" ∧
      s'.map.camera = fraTerm.defaultView ∧
      ∀ p ∈ fraTerm.levels, admRank "ADM0" ≤ admRank p.1 :=
  selectCountry_single_active_level okFetch freshSess "FRA" fraTerm "ADM0"
    { term := "Country", file := "Europe/FRA_France/FRA_ADM0.geojson" }
    [("ADM1", { term := "Region", file := "Europe/FRA_France/FRA_ADM1.geojson" })]
    (by decide) (by decide) (by decide)

/-! ## C6 -/

/-- C6: choosing a search record whose country differs from the current
selection clears the previous country's levels through `selectCountry`,
auto-activates the new country's first (least detailed) level, moves the
camera to the record's representative point at zoom 7, and activates the
record's level — both levels end up active. -/
theorem searchResult_cross_country_spec
    (fetchFn : String → Option GeoJSON) (s : Sess) (item : SearchItem)
    (cd : CountryTerm) (l0 : String) (li0 liX : LevelInfo)
    (rest : List (String × LevelInfo))
    (hne : s.app.selectedCountryISO ≠ some item.iso)
    (h1 : s.app.terminology.lookup item.iso = some cd)
    (h2 : cd.levels = (l0, li0) :: rest)
    (h3 : cd.levels.lookup item.level = some liX)
    (h4 : item.level ≠ l0) :
    ∃ s', selectSearchResult fetchFn s item = some s' ∧
      s'.app.activeLevels = [l0, item.level] ∧
      s'.map.camera = { center := item.center, zoom := 7 } ∧
      s'.app.selectedCountryISO = some item.iso := by
  obtain ⟨s1, hsc, hA, hSel, hCam, hTerm⟩ :=
    selectCountry_spec fetchFn s item.iso cd l0 li0 rest h1 h2
  have h1' : s1.app.terminology.lookup item.iso = some cd := by rw [hTerm]; exact h1
  have hAdd : setAdd item.level s1.app.activeLevels = [l0, item.level] := by
    rw [hA]
    simp [setAdd, h4]
  obtain ⟨s', hrun, hA', hSel', hCam', _⟩ :=
    load_keeps fetchFn
      { s1 with
        app := { s1.app with activeLevels := setAdd item.level s1.app.activeLevels },
        map := { s1.map with camera := { center := item.center, zoom := 7 } } }
      item.iso item.level cd liX h1' h3
  refine ⟨s', ?_, ?_, ?_, ?_⟩
  · unfold selectSearchResult toggleAdminLevel
    rw [if_pos hne, hsc]
    exact hrun
  · rw [hA']
    exact hAdd
  · exact hCam'
  · rw [hSel']
    exact hSel

/-- C6 witness: spec scenario 4 — picking the "Cook County" (USA, ADM2)
search hit while France is selected ends with USA selected, active levels
exactly `[ADM0, ADM2]`, and the camera on the record's point. -/
theorem searchResult_cross_country_spec_wit :
    ∃ s', selectSearchResult okFetch fraSess
        { name := "Cook County", iso := "USA", level := "ADM2", center := (-87, 41) } =
        some s' ∧
      s'.app.activeLevels = ["ADM0", "ADM2"] ∧
      s'.map.camera = { center := (-87, 41), zoom := 7 } ∧
      s'.app.selectedCountryISO = some "USA" :=
  searchResult_cross_country_spec okFetch fraSess
    { name := "Cook County", iso := "USA", level := "ADM2", center := (-87, 41) }
    usaTerm "ADM0"
    { term := "Country", file := "NA/USA/USA_ADM0.geojson" }
    { term := "County", file := "NA/USA/USA_ADM2.geojson" }
    [("ADM2", { term := "County", file := "NA/USA/USA_ADM2.geojson" })]
    (by decide) (by decide) (by decide) (by decide) (by decide)

/-! ## C2 -/

/-- C2: the code appends newly activated layers at the top of the draw
order instead of inserting them at their rank position (its own comments
at lines 208-217 quote the stacking-order requirement and admit the
append shortcut).  Concretely: activate `ADM1` for France, then `ADM0`.
Both levels end active, but `ADM0`'s layers — the *lower* rank — sit
strictly *above* `ADM1`'s layers in draw order, violating the invariant
that the lower rank is strictly below. -/
theorem append_breaks_draw_order :
    ((toggleAdminLevel okFetch freshSess "FRA" "ADM1" true).bind fun s1 =>
      toggleAdminLevel okFetch s1 "FRA" "ADM0" true).map
      (fun s => (s.app.activeLevels, s.map.layers)) =
    some (["ADM1", "ADM0"],
      ["layer-fill-FRA_ADM1", "layer-line-FRA_ADM1",
       "layer-fill-FRA_ADM0", "layer-line-FRA_ADM0"]) := by decide

/-! ## C1 -/

/-- C1 counterexample.  Claim C1 states that when the dataset fetch
fails, the level is *not* marked active.  On a fresh session with every
fetch failing, `toggleAdminLevel("FRA", "ADM0", true)` nevertheless
leaves `"ADM0"` in `activeLevels` — while, as the claim expects, no draw
layers and no data source were created, so the active-iff-layers-exist
invariant is broken. -/
theorem fetchFail_level_still_active_cex :
    (toggleAdminLevel failFetch freshSess "FRA" "ADM0" true).map
      (fun s => (s.app.activeLevels, s.map.layers, s.map.sources)) =
    some (["ADM0"], [], []) := by decide

/-- C1 (amended): a `setLevelActive(country, level, true)` call whose
dataset fetch fails creates no draw layers and no data source and leaves
the cache and the whole renderer state untouched, but the level *is*
marked active in `ActivationState` — `toggleAdminLevel` adds it before
the fetch and does not roll the flag back, so the active-iff-layers-exist
invariant is violated rather than preserved. -/
theorem fetchFail_marks_active_no_layers
    (fetchFn : String → Option GeoJSON) (s : Sess) (iso lvl : String)
    (cd : CountryTerm) (li : LevelInfo)
    (h1 : s.app.terminology.lookup iso = some cd)
    (h2 : cd.levels.lookup lvl = some li)
    (hsrc : s.map.sources.lookup (sourceIdOf iso lvl) = none)
    (hcache : s.app.geoJsonCache.lookup (cacheKeyOf iso lvl) = none)
    (hfail : fetchFn (dataBaseUrl ++ "/" ++ li.file) = none) :
    toggleAdminLevel fetchFn s iso lvl true =
      some { s with app := { s.app with
        activeLevels := setAdd lvl s.app.activeLevels } } ∧
    lvl ∈ setAdd lvl s.app.activeLevels := by
  constructor
  · unfold toggleAdminLevel loadAndRenderLayer
    simp [hsrc, hcache, h1, h2, hfail]
  · unfold setAdd
    by_cases h : lvl ∈ s.app.activeLevels <;> simp [h]

/-- C1 amended-claim witness on concrete inputs. -/
theorem fetchFail_marks_active_no_layers_wit :
    toggleAdminLevel failFetch freshSess "FRA" "ADM1" true =
      some { freshSess with app := { freshSess.app with
        activeLevels := setAdd "ADM1" freshSess.app.activeLevels } } ∧
    "ADM1" ∈ setAdd "ADM1" freshSess.app.activeLevels :=
  fetchFail_marks_active_no_layers failFetch freshSess "FRA" "ADM1" fraTerm
    { term := "Region", file := "Europe/FRA_France/FRA_ADM1.geojson" }
    (by decide) (by decide) (by decide) (by decide) (by decide)

/-! ## C3 -/

/-- C3 counterexample.  Claim C3 states that `selectCountry` on a country
with no terminology entry leaves the entire `ActivationState` unchanged.
Starting from a session with France selected and `ADM0` active,
`selectCountry("ZZZ")` sets the selected country to `"ZZZ"` and clears
the active-level set — both mutations happen before the terminology
check. -/
theorem selectCountry_missing_term_mutates_cex :
    (selectCountry okFetch fraSess "ZZZ").map
      (fun s => (s.app.selectedCountryISO, s.app.activeLevels)) =
      some (some "ZZZ", []) ∧
    fraSess.app.selectedCountryISO = some "FRA" ∧
    fraSess.app.activeLevels = ["ADM0"] := by decide

/-- C3 (amended): `selectCountry` on a country with no terminology entry
logs and aborts before any camera move, layer change or level activation,
but does not leave `ActivationState` unchanged: the selected country has
already been set to the new code and the active-level set cleared; only
the cache (and the renderer state) are untouched. -/
theorem selectCountry_missing_term_spec
    (fetchFn : String → Option GeoJSON) (s : Sess) (iso : String)
    (h : s.app.terminology.lookup iso = none) :
    selectCountry fetchFn s iso =
      some { s with app := { s.app with
        selectedCountryISO := some iso, activeLevels := [] } } := by
  unfold selectCountry
  simp [h]

/-- C3 amended-claim witness on concrete inputs. -/
theorem selectCountry_missing_term_spec_wit :
    selectCountry okFetch freshSess "XYZ" =
      some { freshSess with app := { freshSess.app with
        selectedCountryISO := some "XYZ", activeLevels := [] } } :=
  selectCountry_missing_term_spec okFetch freshSess "XYZ" (by decide)

/-! ## C10 -/

/-- C10: a failed dataset fetch leaves the boundary cache (indeed the
entire session state) unchanged: the cache entry is written only after a
successful fetch — so a later re-enable of the same level attempts the
retrieval again, and when that retry succeeds the fetched dataset is
cached under the key. -/
theorem fetch_failure_cache_unchanged
    (fetchFn fetchFn2 : String → Option GeoJSON) (s : Sess) (iso lvl : String)
    (cd : CountryTerm) (li : LevelInfo) (d : GeoJSON)
    (h1 : s.app.terminology.lookup iso = some cd)
    (h2 : cd.levels.lookup lvl = some li)
    (hsrc : s.map.sources.lookup (sourceIdOf iso lvl) = none)
    (hcache : s.app.geoJsonCache.lookup (cacheKeyOf iso lvl) = none)
    (hfail : fetchFn (dataBaseUrl ++ "/" ++ li.file) = none)
    (hok : fetchFn2 (dataBaseUrl ++ "/" ++ li.file) = some d) :
    loadAndRenderLayer fetchFn s iso lvl = some s ∧
    ∃ s2, loadAndRenderLayer fetchFn2 s iso lvl = some s2 ∧
      s2.app.geoJsonCache.lookup (cacheKeyOf iso lvl) = some d := by
  refine ⟨?_, addLayersFor { s with app := { s.app with
      geoJsonCache := assocSet (cacheKeyOf iso lvl) d s.app.geoJsonCache } } iso lvl,
    ?_, ?_⟩
  · unfold loadAndRenderLayer
    simp [hsrc, hcache, h1, h2, hfail]
  · unfold loadAndRenderLayer
    simp [hsrc, hcache, h1, h2, hok]
  · simpa [addLayersFor] using assocSet_lookup (cacheKeyOf iso lvl) d s.app.geoJsonCache

/-- C10 witness on concrete inputs. -/
theorem fetch_failure_cache_unchanged_wit :
    loadAndRenderLayer failFetch freshSess "FRA" "ADM0" = some freshSess ∧
    ∃ s2, loadAndRenderLayer okFetch freshSess "FRA" "ADM0" = some s2 ∧
      s2.app.geoJsonCache.lookup (cacheKeyOf "FRA" "ADM0") = some 7 :=
  fetch_failure_cache_unchanged failFetch okFetch freshSess "FRA" "ADM0" fraTerm
    { term := "Country", file := "Europe/FRA_France/FRA_ADM0.geojson" } 7
    (by decide) (by decide) (by decide) (by decide) (by decide) (by decide)

/-! ## C4 -/

/-- A fresh scheduler state: fresh session, no in-flight fetches. -/
def sched0 : SchedState := { sess := freshSess, pending := [], fetchCount := 0 }

/-- C4 counterexample.  Claim C4 states that an in-flight fetch whose
target no longer matches the current `ActivationState` is discarded when
it completes.  Trace: select France (its `ADM0` fetch suspends), then
select the USA while that fetch is pending, then let the stale France
fetch complete.  Its result is *not* discarded: with the USA selected,
the completion still writes `FRA_ADM0` into the cache and creates the
France source and draw layers. -/
theorem stale_fetch_not_discarded_cex :
    (((selectCountryStart sched0 "FRA").bind fun st1 =>
        selectCountryStart st1 "USA").map fun st2 =>
      ((loadResume st2 0 (some 42)).sess.app.selectedCountryISO,
       (loadResume st2 0 (some 42)).sess.map.layers,
       (loadResume st2 0 (some 42)).sess.app.geoJsonCache.lookup
         (cacheKeyOf "FRA" "ADM0"))) =
    some (some "USA", ["layer-fill-FRA_ADM0", "layer-line-FRA_ADM0"], some 42) := by
  decide

/-- C4 (amended): a completed in-flight fetch is *not* discarded on
staleness — the continuation runs unconditionally, so even when the
session has moved to a different country, the completion writes the cache
entry and creates the draw layers for its original (country, level)
target. -/
theorem stale_fetch_completion_spec
    (st : SchedState) (i : Nat) (pf : PendingFetch) (d : GeoJSON)
    (hp : st.pending.get? i = some pf)
    (_hstale : st.sess.app.selectedCountryISO ≠ some pf.iso)
    (hsrc : st.sess.map.sources.lookup (sourceIdOf pf.iso pf.levelCode) = none) :
    (loadResume st i (some d)).sess.app.geoJsonCache.lookup
        (cacheKeyOf pf.iso pf.levelCode) = some d ∧
    fillIdOf pf.iso pf.levelCode ∈ (loadResume st i (some d)).sess.map.layers := by
  unfold loadResume
  simp only [hp]
  constructor
  · simp [hsrc, addLayersFor, assocSet_lookup]
  · simp [hsrc, addLayersFor]

/-- A scheduler state with a stale pending France fetch while the USA is
the selected country. -/
def staleSched : SchedState :=
  { sess := { freshSess with app := { freshSess.app with
      selectedCountryISO := some "USA", activeLevels := ["ADM0"] } },
    pending := [{ iso := "FRA", levelCode := "ADM0",
                  path := dataBaseUrl ++ "/Europe/FRA_France/FRA_ADM0.geojson" }],
    fetchCount := 2 }

/-- C4 amended-claim witness on concrete inputs. -/
theorem stale_fetch_completion_spec_wit :
    (loadResume staleSched 0 (some 42)).sess.app.geoJsonCache.lookup
        (cacheKeyOf "FRA" "ADM0") = some 42 ∧
    fillIdOf "FRA" "ADM0" ∈ (loadResume staleSched 0 (some 42)).sess.map.layers :=
  stale_fetch_completion_spec staleSched 0
    { iso := "FRA", levelCode := "ADM0",
      path := dataBaseUrl ++ "/Europe/FRA_France/FRA_ADM0.geojson" } 42
    (by decide) (by decide) (by decide)

/-! ## C8 -/

/-- C8 counterexample.  Claim C8 states that two activation requests for
the same (country, level) key issue at most one network retrieval even
when they interleave before the first fetch completes.  Trace: two
`toggleAdminLevel("FRA", "ADM1", true)` calls, the second starting while
the first is suspended on its fetch.  The second call finds neither the
source nor the cache entry (the first fetch has not completed) and issues
its own fetch: two retrievals are in flight for the same key. -/
theorem interleaved_fetch_duplicate_cex :
    (((toggleStart sched0 "FRA" "ADM1" true).bind fun st1 =>
        toggleStart st1 "FRA" "ADM1" true).map fun st2 =>
      (st2.fetchCount, st2.pending)) =
    some (2,
      [{ iso := "FRA", levelCode := "ADM1",
         path := dataBaseUrl ++ "/Europe/FRA_France/FRA_ADM1.geojson" },
       { iso := "FRA", levelCode := "ADM1",
         path := dataBaseUrl ++ "/Europe/FRA_France/FRA_ADM1.geojson" }]) := by
  decide

/-- C8 (amended): deduplication holds only sequentially.  Once an
activation for the key has completed (its source exists) or its dataset
is cached, a further activation request issues no new fetch and observes
the same cached data; but requests that interleave before the first fetch
completes each issue their own retrieval (there is no per-key in-flight
marker). -/
theorem sequential_refetch_suppressed
    (st : SchedState) (iso lvl : String)
    (h : (st.sess.map.sources.lookup (sourceIdOf iso lvl)).isSome = true ∨
         (st.sess.app.geoJsonCache.lookup (cacheKeyOf iso lvl)).isSome = true) :
    ∃ st', toggleStart st iso lvl true = some st' ∧
      st'.fetchCount = st.fetchCount ∧
      st'.pending = st.pending ∧
      st'.sess.app.geoJsonCache = st.sess.app.geoJsonCache := by
  unfold toggleStart loadStart
  rcases h with h | h
  · exact ⟨{ st with sess := { st.sess with app := { st.sess.app with
        activeLevels := setAdd lvl st.sess.app.activeLevels } } },
      by simp [h], rfl, rfl, rfl⟩
  · cases hs : (st.sess.map.sources.lookup (sourceIdOf iso lvl)).isSome with
    | true =>
      exact ⟨{ st with sess := { st.sess with app := { st.sess.app with
          activeLevels := setAdd lvl st.sess.app.activeLevels } } },
        by simp [hs], rfl, rfl, rfl⟩
    | false =>
      exact ⟨{ st with sess := addLayersFor { st.sess with app := { st.sess.app with
          activeLevels := setAdd lvl st.sess.app.activeLevels } } iso lvl },
        by simp [hs, h], rfl, rfl, rfl⟩

/-- A scheduler state in which France's `ADM0` activation has completed:
source present, dataset cached. -/
def settledSched : SchedState := { sess := fraSess, pending := [], fetchCount := 1 }

/-- C8 amended-claim witness on concrete inputs. -/
theorem sequential_refetch_suppressed_wit :
    ∃ st', toggleStart settledSched "FRA" "ADM0" true = some st' ∧
      st'.fetchCount = settledSched.fetchCount ∧
      st'.pending = settledSched.pending ∧
      st'.sess.app.geoJsonCache = settledSched.sess.app.geoJsonCache :=
  sequential_refetch_suppressed settledSched "FRA" "ADM0" (Or.inl (by decide))

/-! ## C5 -/

/-- One step of the running "first feature with the highest rank so far"
selection: keep the current best on ties and on smaller ranks. -/
def pickOpt (acc : Option Feature) (x : Feature) : Option Feature :=
  some (match acc with
    | none => x
    | some b => if levelNum b < levelNum x then x else b)

/-- Spec-side definition of the feature resolver, written from the spec's
words for the refinement comparison: the single feature whose level rank
is numerically highest among the hits, ties resolving to the first hit
encountered; nothing when no feature is hit. -/
def firstMaxByRank : List Feature → Option Feature
  | [] => none
  | x :: xs =>
    some (xs.foldl (fun best y => if levelNum best < levelNum y then y else best) x)

/-- The head of a stable descending insertion is the better of the old
head and the inserted element (old head wins ties). -/
theorem head_insertByLevelDesc (x : Feature) (l : List Feature) :
    (insertByLevelDesc x l).head? = pickOpt l.head? x := by
  cases l with
  | nil => rfl
  | cons y ys =>
    by_cases h : levelNum y < levelNum x
    · simp [insertByLevelDesc, h, pickOpt]
    · simp [insertByLevelDesc, h, pickOpt]

/-- Head of the sort's insertion fold, as a fold of `pickOpt`. -/
theorem head_sort_loop (l acc : List Feature) :
    (l.foldl (fun a x => insertByLevelDesc x a) acc).head? = l.foldl pickOpt acc.head? := by
  induction l generalizing acc with
  | nil => rfl
  | cons x xs ih => rw [List.foldl_cons, List.foldl_cons, ih, head_insertByLevelDesc]

/-- Folding `pickOpt` from a present accumulator never loses it. -/
theorem foldl_pickOpt_some (xs : List Feature) (b : Feature) :
    xs.foldl pickOpt (some b) =
      some (xs.foldl (fun best y => if levelNum best < levelNum y then y else best) b) := by
  induction xs generalizing b with
  | nil => rfl
  | cons y ys ih =>
    rw [List.foldl_cons, List.foldl_cons]
    show ys.foldl pickOpt (pickOpt (some b) y) = _
    have hstep : pickOpt (some b) y = some (if levelNum b < levelNum y then y else b) := rfl
    rw [hstep, ih]

/-- The running pick dominates its seed and every folded element. -/
theorem foldl_pick_le (xs : List Feature) (b : Feature) :
    levelNum b ≤
      levelNum (xs.foldl (fun best y => if levelNum best < levelNum y then y else best) b) ∧
    ∀ f ∈ xs,
      levelNum f ≤
        levelNum (xs.foldl (fun best y => if levelNum best < levelNum y then y else best) b) := by
  induction xs generalizing b with
  | nil => exact ⟨le_refl _, by simp⟩
  | cons y ys ih =>
    rw [List.foldl_cons]
    obtain ⟨h1, h2⟩ := ih (if levelNum b < levelNum y then y else b)
    refine ⟨le_trans ?_ h1, ?_⟩
    · by_cases h : levelNum b < levelNum y
      · simp only [if_pos h]
        exact Nat.le_of_lt h
      · simp only [if_neg h]
        exact le_refl _
    · intro f hf
      rcases List.mem_cons.mp hf with rfl | hf'
      · refine le_trans ?_ h1
        by_cases h : levelNum b < levelNum f
        · simp only [if_pos h]
          exact le_refl _
        · simp only [if_neg h]
          exact Nat.le_of_not_lt h
      · exact h2 f hf'

/-- C5: `handleFeatureClick` — stable sort descending by parsed rank,
then take the first element — returns exactly the feature the spec
describes: the first hit attaining the numerically highest level rank
(so ties at equal rank resolve to the first hit encountered), `none`
exactly when no feature was hit (the click handler is then a no-op), and
the returned feature's rank dominates every hit. -/
theorem featureResolver_first_max (l : List Feature) :
    handleFeatureClick l = firstMaxByRank l ∧
    (handleFeatureClick l = none ↔ l = []) ∧
    (∀ g, handleFeatureClick l = some g → ∀ f ∈ l, levelNum f ≤ levelNum g) := by
  have hmain : handleFeatureClick l = firstMaxByRank l := by
    cases l with
    | nil => rfl
    | cons x xs =>
      unfold handleFeatureClick sortByLevelDesc
      rw [if_neg (by simp)]
      rw [head_sort_loop, List.foldl_cons]
      show xs.foldl pickOpt (pickOpt none x) = _
      have hx : pickOpt none x = some x := rfl
      rw [hx, foldl_pickOpt_some]
      rfl
  refine ⟨hmain, ?_, ?_⟩
  · cases l with
    | nil => simp [handleFeatureClick]
    | cons x xs =>
      rw [hmain]
      simp [firstMaxByRank]
  · intro g hg f hf
    cases l with
    | nil => cases hf
    | cons x xs =>
      rw [hmain] at hg
      unfold firstMaxByRank at hg
      injection hg with hg
      subst hg
      rcases List.mem_cons.mp hf with rfl | hf'
      · exact (foldl_pick_le xs f).1
      · exact (foldl_pick_le xs x).2 f hf'

/-- Overlapping hit at rank 0 for the C5 witness. -/
def hit0 : Feature := { shapeName := "United States", shapeType := "ADM0", shapeGroup := "USA" }

/-- Overlapping hit at rank 1 for the C5 witness. -/
def hit1 : Feature := { shapeName := "Illinois", shapeType := "ADM1", shapeGroup := "USA" }

/-- Overlapping hit at rank 2 for the C5 witness. -/
def hit2 : Feature := { shapeName := "Cook County", shapeType := "ADM2", shapeGroup := "USA" }

/-- C5 witness: with overlapping features at ranks 0, 1 and 2 under one
point, the resolver returns the rank-2 feature and its rank dominates the
hits; an empty hit list resolves to nothing. -/
theorem featureResolver_first_max_wit :
    handleFeatureClick [hit0, hit1, hit2] = some hit2 ∧
    (∀ f ∈ [hit0, hit1, hit2], levelNum f ≤ levelNum hit2) ∧
    handleFeatureClick ([] : List Feature) = none := by
  refine ⟨by decide, ?_, by decide⟩
  exact (featureResolver_first_max [hit0, hit1, hit2]).2.2 hit2 (by decide)

/-! ## C9 -/

/-- C9: the popup content lookup is total and degrades gracefully — when
the terminology lookup fails the displayed level term falls back to the
raw level code; when the content record is missing the payload is empty
(no media, no description); and the payload always surfaces at most one
video and at most one image (the first of each). -/
theorem showPopup_fallback_spec (s : AppState) (f : Feature) :
    (((s.terminology.lookup f.shapeGroup).bind
        (fun td => td.levels.lookup f.shapeType)) = none →
      (showPopup s f).subtitle = f.shapeType) ∧
    (contentFind s.content f.shapeGroup f.shapeType f.shapeName = none →
      (showPopup s f).videoEmbeds = [] ∧ (showPopup s f).imageEmbeds = [] ∧
        (showPopup s f).descriptionShown = none) ∧
    (showPopup s f).videoEmbeds.length ≤ 1 ∧
    (showPopup s f).imageEmbeds.length ≤ 1 := by
  refine ⟨?_, ?_, ?_, ?_⟩
  · intro h
    simp [showPopup, h]
  · intro h
    simp [showPopup, h]
  · cases hc : contentFind s.content f.shapeGroup f.shapeType f.shapeName with
    | none => simp [showPopup, hc]
    | some c =>
      cases hv : c.videos with
      | nil => simp [showPopup, hc, hv]
      | cons v vs => simp [showPopup, hc, hv]
  · cases hc : contentFind s.content f.shapeGroup f.shapeType f.shapeName with
    | none => simp [showPopup, hc]
    | some c =>
      cases hv : c.images with
      | nil => simp [showPopup, hc, hv]
      | cons v vs => simp [showPopup, hc, hv]

/-- A clicked feature of a country absent from both catalogs. -/
def cheFeat : Feature := { shapeName := "Zurich", shapeType := "ADM1", shapeGroup := "CHE" }

/-- C9 witness: clicking a feature with no terminology entry and no
content record yields the raw level code as subtitle and a fully empty
payload. -/
theorem showPopup_fallback_spec_wit :
    (showPopup freshSess.app cheFeat).subtitle = cheFeat.shapeType ∧
    (showPopup freshSess.app cheFeat).videoEmbeds = [] ∧
    (showPopup freshSess.app cheFeat).imageEmbeds = [] ∧
    (showPopup freshSess.app cheFeat).descriptionShown = none ∧
    (showPopup freshSess.app cheFeat).videoEmbeds.length ≤ 1 ∧
    (showPopup freshSess.app cheFeat).imageEmbeds.length ≤ 1 := by
  have h := showPopup_fallback_spec freshSess.app cheFeat
  exact ⟨h.1 (by decide), (h.2.1 (by decide)).1, (h.2.1 (by decide)).2.1,
    (h.2.1 (by decide)).2.2, h.2.2.1, h.2.2.2⟩

end GeoBoundaries
